import Mathlib

/-!
Shallow embedding of the batch crawl orchestration and resumable progress
model of the etsy scraper (src/etsy_scraper/section_scraper.py,
src/etsy_scraper/utils.py, src/etsy_scraper/real_chrome_scraper.py).

Python strings become `String` (or `List Char` where character-level
operations matter), Python sets become `Finset`/duplicate-free lists,
the filesystem becomes explicit `Option` values threaded through the
operations, and the external browser/HTTP collaborators become function
parameters.  Fallible code returns `Except`.
-/

/-- Python truthiness of an optional string: `None` and `""` are falsy. -/
def pyFalsyStr : Option String → Bool
  | none => true
  | some s => decide (s = "")

/-! ### ScrapeProgress (section_scraper.py lines 26-154) -/

/-- In-memory state of a `ScrapeProgress` instance: the constructor
arguments (section url, shop name, section id) plus the mutable fields
`_completed_ids`, `_total_found`, `_started_at`. -/
structure ScrapeProgress where
  sectionUrl : String
  shopName : String
  sectionId : String
  completedIds : Finset String
  totalFound : Nat
  startedAt : Option String
deriving DecidableEq

/-- `ScrapeProgress.__init__`: fresh in-memory state. -/
def ScrapeProgress.init (sectionUrl shopName sectionId : String) : ScrapeProgress :=
  { sectionUrl := sectionUrl, shopName := shopName, sectionId := sectionId,
    completedIds := ∅, totalFound := 0, startedAt := none }

/-- The durable record written by `ScrapeProgress.save` (the JSON document
at `{output_dir}/.progress.json`). -/
structure ProgressRecord where
  sectionUrl : String
  shopName : String
  sectionId : String
  startedAt : Option String
  updatedAt : String
  completedIds : Finset String
  totalFound : Nat
deriving DecidableEq

/-- The fields `ScrapeProgress.load` reads out of a parsed progress file
(`data.get('completed_ids', [])`, `data.get('total_found', 0)`,
`data.get('started_at')`). -/
structure ProgressFileData where
  completedIds : Finset String
  totalFound : Nat
  startedAt : Option String

/-- The `ValueError` raised by `ScrapeProgress.load` on a corrupt progress
file; it carries the underlying parse error and the progress-file path. -/
structure CorruptProgressError where
  parseError : String
  location : String
deriving DecidableEq

/-- `ScrapeProgress.load` (lines 62-91): absent file returns the empty set
and leaves the state untouched; a file whose content fails to parse raises
a `ValueError` carrying the parse error and the file path; a parseable
file loads `completed_ids`, `total_found`, `started_at` into the state and
returns the completed set.  The JSON parser is the external `json` module,
modelled as the parameter `parseJson`. -/
def ScrapeProgress.load (parseJson : String → Except String ProgressFileData)
    (progressFilePath : String) (sp : ScrapeProgress) (file : Option String) :
    Except CorruptProgressError (ScrapeProgress × Finset String) :=
  match file with
  | none => .ok (sp, ∅)
  | some content =>
    match parseJson content with
    | .error e => .error { parseError := e, location := progressFilePath }
    | .ok data =>
      let sp' : ScrapeProgress :=
        { sp with
          completedIds := data.completedIds
          totalFound := data.totalFound
          startedAt := data.startedAt }
      .ok (sp', data.completedIds)

/-- `ScrapeProgress.save` (lines 93-120): adds the id to `_completed_ids`,
sets `_started_at` to `now` when it is unset (Python-falsy), and writes the
full record to the progress file.  Returns the new in-memory state and the
record written to disk; `now` is the timestamp `datetime.now(...)`. -/
def ScrapeProgress.save (sp : ScrapeProgress) (completedId now : String) :
    ScrapeProgress × ProgressRecord :=
  let completed := insert completedId sp.completedIds
  let started := if pyFalsyStr sp.startedAt then some now else sp.startedAt
  ({ sp with completedIds := completed, startedAt := started },
   { sectionUrl := sp.sectionUrl, shopName := sp.shopName, sectionId := sp.sectionId,
     startedAt := started, updatedAt := now, completedIds := completed,
     totalFound := sp.totalFound })

/-- `ScrapeProgress.set_total_found` (lines 122-124). -/
def ScrapeProgress.set_total_found (sp : ScrapeProgress) (total : Nat) : ScrapeProgress :=
  { sp with totalFound := total }

/-- `ScrapeProgress.clear` (lines 138-144): only when the progress file
exists does it unlink the file and reset the in-memory fields; when the
file is absent the method does nothing at all.  The durable file is the
second component. -/
def ScrapeProgress.clear (sp : ScrapeProgress) (file : Option ProgressRecord) :
    ScrapeProgress × Option ProgressRecord :=
  match file with
  | some _ =>
    ({ sp with completedIds := ∅, totalFound := 0, startedAt := none }, none)
  | none => (sp, file)

/-- A sequence of `save` calls (id, timestamp), returning the final state. -/
def ScrapeProgress.saveAll (sp : ScrapeProgress) : List (String × String) → ScrapeProgress
  | [] => sp
  | (id, now) :: rest => ScrapeProgress.saveAll (sp.save id now).1 rest

/-- A sequence of `save` calls, also collecting every record written to the
durable file, in order. -/
def ScrapeProgress.saveTrace (sp : ScrapeProgress) :
    List (String × String) → ScrapeProgress × List ProgressRecord
  | [] => (sp, [])
  | (id, now) :: rest =>
    let step := sp.save id now
    let tail := ScrapeProgress.saveTrace step.1 rest
    (tail.1, step.2 :: tail.2)

/-! ### Pending-filter step of `main` (section_scraper.py lines 1090-1102) -/

/-- The pending-list computation of `main`: `pending_ids = listing_ids`,
then `if args.resume and completed_ids: pending_ids = [lid for lid in
listing_ids if lid not in completed_ids]` (an empty completed set is
Python-falsy, so the filter is skipped). -/
def computePending (resume : Bool) (completedIds : Finset String)
    (listingIds : List String) : List String :=
  if resume = true ∧ completedIds ≠ ∅ then
    listingIds.filter (fun lid => decide (lid ∉ completedIds))
  else listingIds

/-! ### PageDiscoverer: `extract_product_links` (section_scraper.py lines 253-342) -/

/-- One page scan (lines 303-309): walk the listing cards of the page in
order, keeping each id that is truthy (non-empty) and not yet seen.
Returns the new ids of this page (`page_ids`) and the updated seen set. -/
def collectPageIds (cards : List String) (seen : List String) :
    List String × List String :=
  cards.foldl
    (fun acc listingId =>
      if listingId ≠ "" ∧ listingId ∉ acc.2 then
        (acc.1 ++ [listingId], acc.2 ++ [listingId])
      else acc)
    ([], seen)

/-- Loop state of `extract_product_links`: `all_listing_ids`, `seen_ids`,
`total_pages`, `current_page`. -/
structure DiscoveryState where
  allListingIds : List String
  seenIds : List String
  totalPages : Option Nat
  currentPage : Nat
deriving DecidableEq

/-- The `while True` loop of `extract_product_links`.  `pages` is the
external browser collaborator: the listing ids present on each page, in
page order.  Each iteration: fetch the page, collect its new ids, stop if
the page contributed no new id; on page 1 with a known positive
`total_items` learn `items_per_page` and compute
`total_pages = ceil(total_items / items_per_page)`, stopping at once if
`total_pages <= 1`; finally stop if `current_page >= total_pages`,
otherwise move to the next page.  Fuel makes the recursion structural;
`none` means the fuel ran out before the loop stopped.  On a normal stop
the result is the accumulated id list and the number of the last page
fetched. -/
def extract_product_links_loop (pages : Nat → List String) (totalItems : Nat) :
    Nat → DiscoveryState → Option (List String × Nat)
  | 0, _ => none
  | fuel + 1, st =>
    let scan := collectPageIds (pages st.currentPage) st.seenIds
    let all' := st.allListingIds ++ scan.1
    if scan.1 = [] then some (all', st.currentPage)
    else
      let learned : Option Nat × Bool :=
        if st.currentPage = 1 ∧ 0 < totalItems then
          let itemsPerPage := scan.1.length
          let tp := (totalItems + itemsPerPage - 1) / itemsPerPage
          (some tp, decide (tp ≤ 1))
        else (st.totalPages, false)
      if learned.2 then some (all', st.currentPage)
      else
        match learned.1 with
        | some tp =>
          if tp ≤ st.currentPage then some (all', st.currentPage)
          else extract_product_links_loop pages totalItems fuel
            ⟨all', scan.2, some tp, st.currentPage + 1⟩
        | none =>
          extract_product_links_loop pages totalItems fuel
            ⟨all', scan.2, none, st.currentPage + 1⟩

/-- `extract_product_links`: run the pagination loop from page 1 with
empty accumulators. -/
def extract_product_links (pages : Nat → List String) (totalItems fuel : Nat) :
    Option (List String × Nat) :=
  extract_product_links_loop pages totalItems fuel ⟨[], [], none, 1⟩

/-- Stub collaborator for the discovery-termination scenario: pages of
5, 5, 3 and 0 fresh ids, no duplicates across pages. -/
def stubPages : Nat → List String := fun n =>
  if n = 1 then ["L01", "L02", "L03", "L04", "L05"]
  else if n = 2 then ["L06", "L07", "L08", "L09", "L10"]
  else if n = 3 then ["L11", "L12", "L13"]
  else []

/-! ### ImageNameTracker (section_scraper.py lines 471-501) -/

/-- `ImageNameTracker.name_counts`: a `defaultdict(int)` from product name
to occurrence count. -/
def ImageNameTracker := String → Nat

/-- `ImageNameTracker.get_suffix`: read the current count for the name,
increment it, and return `""` for a first occurrence or `"(count)"`
afterwards.  Returns the suffix and the updated counter map. -/
def ImageNameTracker.get_suffix (tracker : ImageNameTracker) (productName : String) :
    String × ImageNameTracker :=
  let count := tracker productName
  (if count = 0 then "" else "(" ++ toString count ++ ")",
   fun n => if n = productName then count + 1 else tracker n)

/-- Run a sequence of `get_suffix` calls, collecting the returned suffixes
in call order. -/
def runGetSuffix (tracker : ImageNameTracker) : List String → List String
  | [] => []
  | n :: rest =>
    let r := ImageNameTracker.get_suffix tracker n
    r.1 :: runGetSuffix r.2 rest

/-- The suffix `get_suffix` returns when the name was seen `k` times
before: `""` for `k = 0`, else `"(k)"`. -/
def suffixOfCount (k : Nat) : String :=
  if k = 0 then "" else "(" ++ toString k ++ ")"

/-! ### ItemProcessor: `download_images_to_section` and `process_product`
(section_scraper.py lines 528-667) -/

/-- Python truthiness of the optional `image_selection` list argument:
`None` and `[]` both select all images. -/
def pySelection : Option (List Nat) → Option (List Nat)
  | none => none
  | some [] => none
  | some sel => some sel

/-- `download_images_to_section` (lines 528-613), reduced to the quantity
the claims are about: how many images are successfully written.  `fetchOk
idx url` is the external HTTP collaborator: whether the fetch-and-write of
the image at 1-based index `idx` with URL `url` succeeds (HTTP 200 and no
exception).  With no (truthy) selection every image is attempted in order;
with a selection only the in-range 1-based indices are attempted
(out-of-range indices are skipped with a warning), and if none is in range
the function returns 0 at once. -/
def download_images_to_section (fetchOk : Nat → String → Bool)
    (images : List String) (imageSelection : Option (List Nat)) : Nat :=
  if images = [] then 0
  else
    match pySelection imageSelection with
    | some sel =>
      let validIndices := sel.filter (fun i => decide (1 ≤ i) && decide (i ≤ images.length))
      if validIndices = [] then 0
      else
        ((validIndices.map (fun i => (i, images.getD (i - 1) ""))).filter
          (fun p => fetchOk p.1 p.2)).length
    | none =>
      (((images.enum).map (fun p => (p.1 + 1, p.2))).filter
        (fun p => fetchOk p.1 p.2)).length

/-- The extracted product data `process_product` consumes: the `title` and
`images` entries of the dict returned by `extract_product_data_silent`
(`None` when extraction produced no record at all). -/
structure ProductData where
  title : Option String
  images : List String
deriving DecidableEq

/-- `process_product` (lines 616-667): fail when there is no record or no
truthy title; when the record has images, download them and succeed iff
`downloaded > 0`; fail when the record has no images. -/
def process_product (fetchOk : Nat → String → Bool) (data : Option ProductData)
    (imageSelection : Option (List Nat)) : Bool :=
  match data with
  | none => false
  | some d =>
    if pyFalsyStr d.title then false
    else if d.images = [] then false
    else decide (0 < download_images_to_section fetchOk d.images imageSelection)

/-- The number of image files `process_product` successfully writes: zero
on every failure branch that never reaches the download loop, otherwise
the count returned by `download_images_to_section`. -/
def process_product_written (fetchOk : Nat → String → Bool) (data : Option ProductData)
    (imageSelection : Option (List Nat)) : Nat :=
  match data with
  | none => 0
  | some d =>
    if pyFalsyStr d.title then 0
    else if d.images = [] then 0
    else download_images_to_section fetchOk d.images imageSelection

/-! ### `parse_image_selection` (utils.py lines 10-66) -/

/-- The whitespace characters stripped by Python `str.strip()`. -/
def pyWhitespaceChar (c : Char) : Bool :=
  decide (c = ' ') || decide (c = '\t') || decide (c = '\n') || decide (c = '\r')
    || decide (c = '\x0b') || decide (c = '\x0c')

/-- Python `str.strip()` on a character list. -/
def pyStrip (l : List Char) : List Char :=
  List.rdropWhile pyWhitespaceChar (l.dropWhile pyWhitespaceChar)

/-- Python `str.split(sep)` for a one-character separator: splitting an
empty string yields `[""]`. -/
def splitOnChar (sep : Char) (l : List Char) : List (List Char) :=
  l.foldr
    (fun c acc =>
      if c = sep then [] :: acc
      else
        match acc with
        | a :: rest => (c :: a) :: rest
        | [] => [[c]])
    [[]]

/-- Python `int(s)` on a string of ASCII digits. -/
def strToNat (l : List Char) : Nat :=
  l.foldl (fun a c => a * 10 + (c.toNat - 48)) 0

/-- Python `range(a, b + 1)`: the integers from `a` through `b`. -/
def natRangeIcc (a b : Nat) : List Nat := List.range' a (b + 1 - a)

/-- Python `set.add`: list-as-set insertion, keeping the list
duplicate-free. -/
def insertUniq (n : Nat) (acc : List Nat) : List Nat :=
  if n ∈ acc then acc else n :: acc

/-- Python `indices.update(range(start, end + 1))`. -/
def addRange (acc : List Nat) (a b : Nat) : List Nat :=
  (natRangeIcc a b).foldl (fun ac k => insertUniq k ac) acc

/-- The per-part body of the `for part in parts` loop of
`parse_image_selection` (lines 35-64): strip the part; skip it when empty;
when it contains `-` it must match `^(\d+)-(\d+)$` (exactly two non-empty
all-digit pieces), with `start >= 1` and `start <= end`, and contributes
the whole range; otherwise it must be all digits, at least 1, and
contributes the single index. -/
def parsePart (acc : List Nat) (part0 : List Char) : Except String (List Nat) :=
  let part := pyStrip part0
  if part = [] then .ok acc
  else if '-' ∈ part then
    match splitOnChar '-' part with
    | [s1, s2] =>
      if s1 ≠ [] ∧ s2 ≠ [] ∧ s1.all Char.isDigit ∧ s2.all Char.isDigit then
        let a := strToNat s1
        let b := strToNat s2
        if a < 1 then .error "image index must start at 1"
        else if b < a then .error "range start greater than end"
        else .ok (addRange acc a b)
      else .error "invalid range format"
    | _ => .error "invalid range format"
  else
    if part.all Char.isDigit then
      if strToNat part < 1 then .error "image index must start at 1"
      else .ok (insertUniq (strToNat part) acc)
    else .error "invalid image index"

/-- `parse_image_selection` (utils.py lines 10-66): blank input yields
`[]`; otherwise strip, split on `,`, fold the parts through the loop body,
and return the sorted unique indices. -/
def parse_image_selection (spec : String) : Except String (List Nat) :=
  let chars := spec.toList
  if pyStrip chars = [] then .ok []
  else
    match (splitOnChar ',' (pyStrip chars)).foldlM parsePart [] with
    | .error e => .error e
    | .ok indices => .ok (List.insertionSort (· ≤ ·) indices)

/-- The set of indices a part of the selection specification denotes when
it is accepted: nothing for a blank part, the full range for a range part,
the single index for a number part (and nothing for a malformed part,
which the parser rejects anyway). -/
def partContrib (part0 : List Char) : List Nat :=
  let part := pyStrip part0
  if part = [] then []
  else if '-' ∈ part then
    match splitOnChar '-' part with
    | [s1, s2] =>
      if s1 ≠ [] ∧ s2 ≠ [] ∧ s1.all Char.isDigit ∧ s2.all Char.isDigit then
        natRangeIcc (strToNat s1) (strToNat s2)
      else []
    | _ => []
  else
    if part.all Char.isDigit then [strToNat part] else []

/-- A part of the selection specification is syntactically the range
`a-b`: its stripped form is two non-empty all-digit pieces around one `-`,
with values `a` and `b`. -/
def partIsRange (part0 : List Char) (a b : Nat) : Prop :=
  ∃ s1 s2, splitOnChar '-' (pyStrip part0) = [s1, s2] ∧
    s1 ≠ [] ∧ s2 ≠ [] ∧ s1.all Char.isDigit = true ∧ s2.all Char.isDigit = true ∧
    '-' ∈ pyStrip part0 ∧ pyStrip part0 ≠ [] ∧
    strToNat s1 = a ∧ strToNat s2 = b

/-! ### `sanitize_filename` (real_chrome_scraper.py lines 23-28) -/

/-- The characters the regex `[<>:"/\\|?*\n\r\t]` of `sanitize_filename`
replaces with `_`. -/
def badFileChar (c : Char) : Bool :=
  decide (c ∈ ['<', '>', ':', '"', '/', '\\', '|', '?', '*', '\n', '\r', '\t'])

/-- The characters `sanitize_filename` right-strips: `' '`, `'.'`, `'_'`. -/
def stripTailChar (c : Char) : Bool :=
  decide (c = ' ') || decide (c = '.') || decide (c = '_')

/-- `sanitize_filename` (real_chrome_scraper.py lines 23-28) with the
default `max_length = 100`: falsy input yields `"unnamed"`; otherwise
replace every illegal character by `_`, truncate to 100 characters,
right-strip `' '`, `'.'`, `'_'`, and fall back to `"unnamed"` when the
result is empty. -/
def sanitize_filename (name : List Char) : List Char :=
  if name = [] then "unnamed".toList
  else
    let replaced := name.map (fun c => if badFileChar c then '_' else c)
    let stripped := List.rdropWhile stripTailChar (replaced.take 100)
    if stripped = [] then "unnamed".toList else stripped

/-! ## Theorems -/

/-- Any chain of `save` calls only grows the completed set. -/
theorem saveAll_subset (ops : List (String × String)) :
    ∀ sp : ScrapeProgress, sp.completedIds ⊆ (ScrapeProgress.saveAll sp ops).completedIds := by
  induction ops with
  | nil => intro sp; exact Finset.Subset.refl _
  | cons op rest ih =>
    intro sp
    obtain ⟨id, now⟩ := op
    refine Finset.Subset.trans ?_ (ih (sp.save id now).1)
    simp only [ScrapeProgress.save]
    exact Finset.subset_insert _ _

/-- Claim C1: with resume enabled, the pending list computed before
processing is exactly the discovered duplicate-free ordered sequence `D`
minus the loaded completed set `S`, in the order of `D`: it equals the
order-preserving filter of `D` by non-membership in `S`, it is a
duplicate-free subsequence of `D`, its members are exactly the ids of `D`
outside `S`, and recomputing it over the same `S` and `D` with no
intervening save yields the same list. -/
theorem computePending_resume_spec (S : Finset String) (D : List String)
    (hD : D.Nodup) :
    computePending true S D = D.filter (fun lid => decide (lid ∉ S)) ∧
    List.Sublist (computePending true S D) D ∧
    (computePending true S D).Nodup ∧
    (∀ x, x ∈ computePending true S D ↔ x ∈ D ∧ x ∉ S) ∧
    computePending true S D = computePending true S D := by
  have hfil : computePending true S D = D.filter (fun lid => decide (lid ∉ S)) := by
    unfold computePending
    by_cases h : S = ∅
    · subst h
      simp
    · simp [h]
  refine ⟨hfil, ?_, ?_, ?_, rfl⟩
  · rw [hfil]; exact List.filter_sublist D
  · rw [hfil]; exact hD.filter _
  · intro x; rw [hfil]; simp

/-- Witness for C1 at concrete inputs. -/
theorem computePending_resume_spec_witness :
    computePending true ({"A"} : Finset String) ["A", "B", "C"] = ["B", "C"] ∧
    (∀ x, x ∈ computePending true ({"A"} : Finset String) ["A", "B", "C"] ↔
      x ∈ ["A", "B", "C"] ∧ x ∉ ({"A"} : Finset String)) :=
  ⟨by decide, (computePending_resume_spec {"A"} ["A", "B", "C"] (by decide)).2.2.2.1⟩

/-- Claim C2: each `save` call yields `completed_ids ∪ {id}`; nothing is
ever removed; saving an already-present id leaves the set unchanged; and
across any sequence of `save` calls the set only grows, so its size is
non-decreasing. -/
theorem save_completedIds_monotone (sp : ScrapeProgress) (id now : String) :
    ((sp.save id now).1.completedIds = sp.completedIds ∪ {id}) ∧
    sp.completedIds ⊆ (sp.save id now).1.completedIds ∧
    (id ∈ sp.completedIds → (sp.save id now).1.completedIds = sp.completedIds) ∧
    (∀ ops : List (String × String),
      sp.completedIds ⊆ (ScrapeProgress.saveAll sp ops).completedIds ∧
      sp.completedIds.card ≤ (ScrapeProgress.saveAll sp ops).completedIds.card) := by
  refine ⟨?_, ?_, ?_, ?_⟩
  · simp only [ScrapeProgress.save]
    rw [Finset.insert_eq, Finset.union_comm]
  · simp only [ScrapeProgress.save]
    exact Finset.subset_insert _ _
  · intro h
    simp only [ScrapeProgress.save]
    exact Finset.insert_eq_self.mpr h
  · intro ops
    exact ⟨saveAll_subset ops sp, Finset.card_le_card (saveAll_subset ops sp)⟩

/-- Witness for C2 at concrete inputs. -/
theorem save_completedIds_monotone_witness :
    ((⟨"u", "s", "1", {"A"}, 0, some "T0"⟩ : ScrapeProgress).save "A" "T1").1.completedIds
      = ({"A"} : Finset String) :=
  (save_completedIds_monotone ⟨"u", "s", "1", {"A"}, 0, some "T0"⟩ "A" "T1").2.2.1 (by decide)

/-- Claim C3: when the progress file is absent, `load` returns the empty
set; when the file exists but its content does not parse, `load` raises
the corrupt-progress error carrying the underlying parse error and the
file's location, and in particular does not return anything (so not an
empty set). -/
theorem load_absent_or_corrupt (parseJson : String → Except String ProgressFileData)
    (path : String) (sp : ScrapeProgress) :
    (ScrapeProgress.load parseJson path sp none = .ok (sp, ∅)) ∧
    (∀ content e, parseJson content = .error e →
      ScrapeProgress.load parseJson path sp (some content) =
        .error { parseError := e, location := path } ∧
      ∀ r, ScrapeProgress.load parseJson path sp (some content) ≠ .ok r) := by
  refine ⟨rfl, ?_⟩
  intro content e he
  constructor
  · simp [ScrapeProgress.load, he]
  · intro r
    simp [ScrapeProgress.load, he]

/-- Witness for C3 at a concrete corrupt file. -/
theorem load_absent_or_corrupt_witness :
    ScrapeProgress.load (fun _ => .error "Expecting value: line 1 column 1")
        "output/Canvas/.progress.json" (ScrapeProgress.init "u" "s" "1") (some "not json") =
      .error { parseError := "Expecting value: line 1 column 1",
               location := "output/Canvas/.progress.json" } :=
  ((load_absent_or_corrupt (fun _ => .error "Expecting value: line 1 column 1")
      "output/Canvas/.progress.json" (ScrapeProgress.init "u" "s" "1")).2
    "not json" "Expecting value: line 1 column 1" rfl).1

/-- Counterexample to claim C5 as stated: starting from a fresh store with
no durable record, `set_total_found 5` followed by `clear()` leaves
`total_found = 5`, because `clear` resets the in-memory fields only when
the progress file exists. -/
theorem clear_counterexample :
    (ScrapeProgress.clear
        (ScrapeProgress.set_total_found (ScrapeProgress.init "url" "shop" "42") 5)
        none).1.totalFound ≠ 0 := by
  decide

/-- Claim C5 (amended): after `clear()` the durable record is always
absent; when the record existed before the call the in-memory state is
also reset to empty (`completed_ids = ∅`, `total_found = 0`, `started_at`
unset); when the record was absent the call leaves the in-memory state
unchanged. -/
theorem clear_spec (sp : ScrapeProgress) (file : Option ProgressRecord) :
    (ScrapeProgress.clear sp file).2 = none ∧
    (file ≠ none →
      (ScrapeProgress.clear sp file).1.completedIds = ∅ ∧
      (ScrapeProgress.clear sp file).1.totalFound = 0 ∧
      (ScrapeProgress.clear sp file).1.startedAt = none) ∧
    (file = none → ScrapeProgress.clear sp file = (sp, none)) := by
  cases file with
  | none => exact ⟨rfl, fun h => absurd rfl h, fun _ => rfl⟩
  | some r => exact ⟨rfl, fun _ => ⟨rfl, rfl, rfl⟩, fun h => by simp at h⟩

/-- Witness for C5 (amended) at a concrete state with an existing record. -/
theorem clear_spec_witness :
    (ScrapeProgress.clear (⟨"u", "s", "1", {"A"}, 3, some "T0"⟩ : ScrapeProgress)
        (some ⟨"u", "s", "1", some "T0", "T1", {"A"}, 3⟩)).1.completedIds = ∅ :=
  ((clear_spec ⟨"u", "s", "1", {"A"}, 3, some "T0"⟩
      (some ⟨"u", "s", "1", some "T0", "T1", {"A"}, 3⟩)).2.1 (by simp)).1

/-- A non-empty `started_at` is preserved by every further `save`, both in
memory and in every record written to the durable file. -/
theorem saveTrace_preserves_startedAt (s : String) (hs : s ≠ "") :
    ∀ (ops : List (String × String)) (sp : ScrapeProgress), sp.startedAt = some s →
      (ScrapeProgress.saveTrace sp ops).1.startedAt = some s ∧
      ∀ r ∈ (ScrapeProgress.saveTrace sp ops).2, r.startedAt = some s := by
  intro ops
  induction ops with
  | nil =>
    intro sp h
    exact ⟨h, by simp [ScrapeProgress.saveTrace]⟩
  | cons op rest ih =>
    intro sp h
    obtain ⟨id, now⟩ := op
    have hkeep : ((sp.save id now).1.startedAt = some s) ∧
        ((sp.save id now).2.startedAt = some s) := by
      simp only [ScrapeProgress.save, h, pyFalsyStr]
      simp [hs]
    obtain ⟨ihF, ihR⟩ := ih (sp.save id now).1 hkeep.1
    refine ⟨?_, ?_⟩
    · simpa [ScrapeProgress.saveTrace] using ihF
    · intro r hr
      simp only [ScrapeProgress.saveTrace, List.mem_cons] at hr
      rcases hr with hr | hr
      · rw [hr]; exact hkeep.2
      · exact ihR r hr

/-- Claim C4: `started_at` is set exactly once and never overwritten.
From a state where it is unset, the first `save` stamps it with its own
timestamp and every record written during the run carries that first
timestamp; from a state where a (non-empty) `started_at` is already
present — as after loading the durable record of an earlier run — every
further `save` keeps the existing value, in memory and in every record
written. -/
theorem started_at_set_once (sp : ScrapeProgress) (id now : String)
    (rest : List (String × String)) (hnow : now ≠ "") :
    (sp.startedAt = none →
      (ScrapeProgress.saveTrace sp ((id, now) :: rest)).1.startedAt = some now ∧
      ∀ r ∈ (ScrapeProgress.saveTrace sp ((id, now) :: rest)).2,
        r.startedAt = some now) ∧
    (∀ s, s ≠ "" → sp.startedAt = some s →
      (ScrapeProgress.saveTrace sp ((id, now) :: rest)).1.startedAt = some s ∧
      ∀ r ∈ (ScrapeProgress.saveTrace sp ((id, now) :: rest)).2,
        r.startedAt = some s) := by
  constructor
  · intro h
    have hset : ((sp.save id now).1.startedAt = some now) ∧
        ((sp.save id now).2.startedAt = some now) := by
      simp [ScrapeProgress.save, h, pyFalsyStr]
    obtain ⟨ihF, ihR⟩ := saveTrace_preserves_startedAt now hnow rest (sp.save id now).1 hset.1
    refine ⟨by simpa [ScrapeProgress.saveTrace] using ihF, ?_⟩
    intro r hr
    simp only [ScrapeProgress.saveTrace, List.mem_cons] at hr
    rcases hr with hr | hr
    · rw [hr]; exact hset.2
    · exact ihR r hr
  · intro s hs h
    exact saveTrace_preserves_startedAt s hs ((id, now) :: rest) sp h

/-- Witness for C4: a fresh store with two saves stamps and keeps the
first timestamp. -/
theorem started_at_set_once_witness :
    (ScrapeProgress.saveTrace (ScrapeProgress.init "u" "s" "1")
        [("100", "T1"), ("101", "T2")]).1.startedAt = some "T1" :=
  ((started_at_set_once (ScrapeProgress.init "u" "s" "1") "100" "T1" [("101", "T2")]
      (by decide)).1 rfl).1

/-- Claim C6: with the stub collaborator whose pages contribute 5, 5, 3
and 0 new ids and no known total (`total_items = 0`), discovery returns
exactly the 13 distinct ids of the first three pages in first-seen order
and stops after fetching the fourth (empty) page; and in general, on any
iteration, a page contributing zero new ids stops the loop before the
known-page-limit condition is ever consulted (whatever `total_pages` and
the current page number are). -/
theorem extract_product_links_stub :
    extract_product_links stubPages 0 10 =
      some (["L01", "L02", "L03", "L04", "L05", "L06", "L07", "L08", "L09", "L10",
             "L11", "L12", "L13"], 4) ∧
    ∀ (pages : Nat → List String) (totalItems fuel : Nat) (st : DiscoveryState),
      (collectPageIds (pages st.currentPage) st.seenIds).1 = [] →
      extract_product_links_loop pages totalItems (fuel + 1) st =
        some (st.allListingIds, st.currentPage) := by
  refine ⟨by decide, ?_⟩
  intro pages totalItems fuel st h
  simp [extract_product_links_loop, h]

/-- Witness for C6's general stop-priority conjunct: a page with no new
ids stops the loop even though `total_pages` is known and not reached. -/
theorem extract_product_links_stub_witness :
    extract_product_links_loop (fun _ => []) 0 3
      ⟨["X"], ["X"], some 5, 2⟩ = some (["X"], 2) :=
  extract_product_links_stub.2 (fun _ => []) 0 2 ⟨["X"], ["X"], some 5, 2⟩ (by decide)

/-- Claim C7: an item is reported `Success` iff at least one image file
was written for it.  `process_product` returns `True` iff the number of
images written is positive; it returns `False` when extraction yields no
record, when the record has no (truthy) title, when the record has no
images, and when every attempted image download fails — never `True` with
zero written images. -/
theorem process_product_success_iff (fetchOk : Nat → String → Bool)
    (data : Option ProductData) (imageSelection : Option (List Nat)) :
    (process_product fetchOk data imageSelection = true ↔
      0 < process_product_written fetchOk data imageSelection) ∧
    process_product fetchOk none imageSelection = false ∧
    (∀ d, pyFalsyStr d.title = true →
      process_product fetchOk (some d) imageSelection = false) ∧
    (∀ d, d.images = [] →
      process_product fetchOk (some d) imageSelection = false) ∧
    ((∀ i u, fetchOk i u = false) →
      process_product fetchOk data imageSelection = false) := by
  have hdl : ∀ images, (∀ i u, fetchOk i u = false) →
      download_images_to_section fetchOk images imageSelection = 0 := by
    intro images hf
    unfold download_images_to_section
    split
    · rfl
    · split
      · dsimp only
        split
        · rfl
        · simp [hf]
      · simp [hf]
  refine ⟨?_, rfl, ?_, ?_, ?_⟩
  · cases data with
    | none => simp [process_product, process_product_written]
    | some d =>
      by_cases ht : pyFalsyStr d.title = true
      · simp [process_product, process_product_written, ht]
      · by_cases hi : d.images = []
        · simp [process_product, process_product_written, ht, hi]
        · simp [process_product, process_product_written, ht, hi]
  · intro d ht
    simp [process_product, ht]
  · intro d hi
    by_cases ht : pyFalsyStr d.title = true
    · simp [process_product, ht]
    · simp [process_product, ht, hi]
  · intro hf
    cases data with
    | none => rfl
    | some d =>
      by_cases ht : pyFalsyStr d.title = true
      · simp [process_product, ht]
      · by_cases hi : d.images = []
        · simp [process_product, ht, hi]
        · simp [process_product, ht, hi, hdl d.images hf]

/-- Witness for C7: a record with a title and one image, every download
failing, is reported as a failure. -/
theorem process_product_success_iff_witness :
    process_product (fun _ _ => false) (some ⟨some "Poster", ["u1", "u2"]⟩) none = false :=
  (process_product_success_iff (fun _ _ => false)
      (some ⟨some "Poster", ["u1", "u2"]⟩) none).2.2.2.2 (fun _ _ => rfl)

/-- Each `get_suffix` call returns the suffix determined by how often the
same name was asked before, starting from the given counter map. -/
theorem runGetSuffix_get? (calls : List String) :
    ∀ (tracker : ImageNameTracker) (i : Nat),
      (runGetSuffix tracker calls).get? i =
        (calls.get? i).map
          (fun n => suffixOfCount (tracker n + (calls.take i).count n)) := by
  induction calls with
  | nil => intro tracker i; simp [runGetSuffix]
  | cons n rest ih =>
    intro tracker i
    cases i with
    | zero =>
      simp [runGetSuffix, ImageNameTracker.get_suffix, suffixOfCount]
    | succ i =>
      have step :
          runGetSuffix tracker (n :: rest) =
            (if tracker n = 0 then "" else "(" ++ toString (tracker n) ++ ")") ::
              runGetSuffix (fun m => if m = n then tracker n + 1 else tracker m) rest := by
        simp [runGetSuffix, ImageNameTracker.get_suffix]
      rw [step]
      simp only [List.get?_cons_succ, List.take_succ_cons]
      rw [ih]
      cases hr : rest.get? i with
      | none => simp
      | some m =>
        simp only [Option.map_some']
        congr 1
        show suffixOfCount _ = suffixOfCount _
        congr 1
        by_cases hm : m = n
        · subst hm
          rw [if_pos rfl, List.count_cons]
          simp
          omega
        · rw [if_neg hm, List.count_cons]
          have : (m == n) = false := beq_eq_false_iff_ne.mpr hm
          simp [this]
          exact fun h => hm h.symm

/-- Claim C8: for a fresh `ImageNameTracker`, the first `get_suffix` call
for a name returns `""` and the Nth subsequent call for the same name
returns `"(N)"`, regardless of interleaved calls for other names: the
suffix of each call is determined by the number of earlier calls with the
same name; in particular three calls for `"foo"` interleaved with other
names yield `""`, `"(1)"`, `"(2)"` in that order. -/
theorem get_suffix_sequence :
    (∀ (calls : List String) (i : Nat),
      (runGetSuffix (fun _ => 0) calls).get? i =
        (calls.get? i).map (fun n => suffixOfCount ((calls.take i).count n))) ∧
    runGetSuffix (fun _ => 0) ["foo", "bar", "foo", "baz", "foo"] =
      ["", "", "(1)", "", "(2)"] := by
  constructor
  · intro calls i
    simpa using runGetSuffix_get? calls (fun _ => 0) i
  · decide

/-- Claim C10: with the default `max_length` of 100, `sanitize_filename`
always returns a non-empty string of at most 100 characters containing
none of the illegal filename characters, not ending in a space, dot or
underscore; empty input, or input whose sanitized truncation strips away
entirely, yields `"unnamed"`. -/
theorem sanitize_filename_spec (name : List Char) :
    sanitize_filename name ≠ [] ∧
    (sanitize_filename name).length ≤ 100 ∧
    (∀ c ∈ sanitize_filename name, badFileChar c = false) ∧
    (∀ c, (sanitize_filename name).getLast? = some c → stripTailChar c = false) ∧
    (name = [] → sanitize_filename name = "unnamed".toList) ∧
    (List.rdropWhile stripTailChar
        ((name.map (fun c => if badFileChar c then '_' else c)).take 100) = [] →
      sanitize_filename name = "unnamed".toList) := by
  have hu1 : ("unnamed".toList : List Char) ≠ [] := by decide
  have hu2 : ("unnamed".toList : List Char).length ≤ 100 := by decide
  have hu3 : ∀ c ∈ ("unnamed".toList : List Char), badFileChar c = false := by decide
  have hu4 : ∀ c, ("unnamed".toList : List Char).getLast? = some c →
      stripTailChar c = false := by
    intro c hc
    have hd : ("unnamed".toList : List Char).getLast? = some 'd' := by decide
    rw [hd] at hc
    cases hc
    decide
  by_cases hn : name = []
  · subst hn
    have hres : sanitize_filename [] = "unnamed".toList := rfl
    rw [hres]
    exact ⟨hu1, hu2, hu3, hu4, fun _ => rfl, fun _ => rfl⟩
  · have hdef : sanitize_filename name =
        (if List.rdropWhile stripTailChar
              ((name.map (fun c => if badFileChar c then '_' else c)).take 100) = []
         then "unnamed".toList
         else List.rdropWhile stripTailChar
              ((name.map (fun c => if badFileChar c then '_' else c)).take 100)) := by
      simp [sanitize_filename, hn]
    by_cases hs : List.rdropWhile stripTailChar
        ((name.map (fun c => if badFileChar c then '_' else c)).take 100) = []
    · rw [hs, if_pos rfl] at hdef
      rw [hdef]
      exact ⟨hu1, hu2, hu3, hu4, fun h => absurd h hn, fun _ => rfl⟩
    · rw [if_neg hs] at hdef
      have hpre : List.IsPrefix
          (List.rdropWhile stripTailChar
            ((name.map (fun c => if badFileChar c then '_' else c)).take 100))
          ((name.map (fun c => if badFileChar c then '_' else c)).take 100) :=
        List.rdropWhile_prefix _ _
      refine ⟨?_, ?_, ?_, ?_, fun h => absurd h hn, fun h => absurd h hs⟩
      · rw [hdef]; exact hs
      · rw [hdef]
        exact le_trans ( List.IsPrefix.length_le hpre) (List.length_take_le _ _)
      · intro c hc
        rw [hdef] at hc
        have hc2 : c ∈ (name.map (fun c => if badFileChar c then '_' else c)).take 100 :=
          (List.IsPrefix.subset hpre) hc
        have hc3 : c ∈ name.map (fun c => if badFileChar c then '_' else c) :=
          List.take_subset _ _ hc2
        obtain ⟨a, _, ha⟩ := List.mem_map.mp hc3
        by_cases hb : badFileChar a = true
        · rw [hb] at ha
          simp at ha
          rw [← ha]
          decide
        · have hb' : badFileChar a = false := by
            cases hba : badFileChar a
            · rfl
            · exact absurd hba hb
          rw [hb'] at ha
          simp at ha
          rw [← ha]
          exact hb'
      · intro c hc
        rw [hdef] at hc
        have hlast := List.rdropWhile_last_not stripTailChar
          ((name.map (fun c => if badFileChar c then '_' else c)).take 100) hs
        have heq : List.getLast? (List.rdropWhile stripTailChar
              ((name.map (fun c => if badFileChar c then '_' else c)).take 100)) =
            some (List.getLast (List.rdropWhile stripTailChar
              ((name.map (fun c => if badFileChar c then '_' else c)).take 100)) hs) :=
          List.getLast?_eq_getLast _ hs
        rw [heq] at hc
        cases hc
        exact Bool.not_eq_true _ |>.mp hlast

/-- Witness for C10: concrete inputs for the conditional conjuncts. -/
theorem sanitize_filename_spec_witness :
    sanitize_filename "My: Art/Print  ".toList ≠ [] ∧
    sanitize_filename [] = "unnamed".toList :=
  ⟨(sanitize_filename_spec "My: Art/Print  ".toList).1,
   (sanitize_filename_spec []).2.2.2.2.1 rfl⟩

theorem insertUniq_mem (x n : Nat) (acc : List Nat) :
    x ∈ insertUniq n acc ↔ x = n ∨ x ∈ acc := by
  unfold insertUniq
  split
  · rename_i h
    constructor
    · exact Or.inr
    · rintro (rfl | hx)
      · exact h
      · exact hx
  · simp

theorem insertUniq_nodup (n : Nat) (acc : List Nat) (h : acc.Nodup) :
    (insertUniq n acc).Nodup := by
  unfold insertUniq
  split
  · exact h
  · rename_i hn
    exact List.nodup_cons.mpr ⟨hn, h⟩

theorem foldl_insertUniq_mem (ks : List Nat) :
    ∀ (acc : List Nat) (x : Nat),
      x ∈ ks.foldl (fun ac k => insertUniq k ac) acc ↔ x ∈ ks ∨ x ∈ acc := by
  induction ks with
  | nil => intro acc x; simp
  | cons k ks ih =>
    intro acc x
    rw [List.foldl_cons, ih, insertUniq_mem]
    simp only [List.mem_cons]
    tauto

theorem foldl_insertUniq_nodup (ks : List Nat) :
    ∀ acc : List Nat, acc.Nodup →
      (ks.foldl (fun ac k => insertUniq k ac) acc).Nodup := by
  induction ks with
  | nil => intro acc h; exact h
  | cons k ks ih => intro acc h; exact ih _ (insertUniq_nodup k acc h)

theorem addRange_mem (acc : List Nat) (a b x : Nat) :
    x ∈ addRange acc a b ↔ x ∈ natRangeIcc a b ∨ x ∈ acc :=
  foldl_insertUniq_mem (natRangeIcc a b) acc x

theorem addRange_nodup (acc : List Nat) (a b : Nat) (h : acc.Nodup) :
    (addRange acc a b).Nodup := foldl_insertUniq_nodup _ _ h

theorem natRangeIcc_mem (a b x : Nat) (hab : a ≤ b) :
    x ∈ natRangeIcc a b ↔ a ≤ x ∧ x ≤ b := by
  unfold natRangeIcc
  rw [List.mem_range'_1]
  omega

theorem natRangeIcc_ge (a b x : Nat) (hx : x ∈ natRangeIcc a b) : a ≤ x := by
  unfold natRangeIcc at hx
  rw [List.mem_range'_1] at hx
  exact hx.1

/-- A successful run of the per-part loop body adds exactly the part's
denoted indices to the accumulated set, all denoted indices are at least
1, and the accumulator stays duplicate-free. -/
theorem parsePart_ok (acc : List Nat) (part0 : List Char) (s : List Nat)
    (h : parsePart acc part0 = .ok s) :
    (∀ x, x ∈ s ↔ x ∈ partContrib part0 ∨ x ∈ acc) ∧
    (∀ x ∈ partContrib part0, 1 ≤ x) ∧
    (acc.Nodup → s.Nodup) := by
  simp only [parsePart] at h
  split at h
  · rename_i hempty
    injection h with h
    subst h
    simp [partContrib, hempty]
  · rename_i hne
    split at h
    · rename_i hdash
      split at h
      · rename_i s1 s2 heq
        split at h
        · rename_i hconds
          split at h
          · exact absurd h (by simp)
          · rename_i ha
            split at h
            · exact absurd h (by simp)
            · rename_i hb
              injection h with h
              subst h
              have hcontrib : partContrib part0 =
                  natRangeIcc (strToNat s1) (strToNat s2) := by
                simp [partContrib, hne, hdash, heq, hconds]
              refine ⟨?_, ?_, ?_⟩
              · intro x
                rw [hcontrib]
                exact addRange_mem acc _ _ x
              · intro x hx
                rw [hcontrib] at hx
                have := natRangeIcc_ge _ _ _ hx
                omega
              · intro hacc
                exact addRange_nodup acc _ _ hacc
        · exact absurd h (by simp)
      · exact absurd h (by simp)
    · rename_i hdash
      split at h
      · rename_i hdig
        split at h
        · exact absurd h (by simp)
        · rename_i hval
          injection h with h
          subst h
          have hcontrib : partContrib part0 = [strToNat (pyStrip part0)] := by
            simp [partContrib, hne, hdash, hdig]
          refine ⟨?_, ?_, ?_⟩
          · intro x
            rw [hcontrib, insertUniq_mem]
            simp
          · intro x hx
            rw [hcontrib] at hx
            simp at hx
            omega
          · intro hacc
            exact insertUniq_nodup _ _ hacc
      · exact absurd h (by simp)

/-- A successful run of the whole part loop collects exactly the union of
the parts' denoted indices, keeps the accumulator duplicate-free, and in
particular accepted every single part. -/
theorem foldlM_parsePart_ok (parts : List (List Char)) :
    ∀ (acc s : List Nat), parts.foldlM parsePart acc = .ok s →
      (∀ x, x ∈ s ↔ (∃ p ∈ parts, x ∈ partContrib p) ∨ x ∈ acc) ∧
      (acc.Nodup → s.Nodup) ∧
      (∀ p ∈ parts, ∃ acc' s', parsePart acc' p = .ok s') := by
  induction parts with
  | nil =>
    intro acc s h
    replace h : (Except.ok acc : Except String (List Nat)) = Except.ok s := h
    injection h with h
    subst h
    simp
  | cons p ps ih =>
    intro acc s h
    rw [List.foldlM_cons] at h
    cases hp : parsePart acc p with
    | error e =>
      rw [hp] at h
      replace h : (Except.error e : Except String (List Nat)) = Except.ok s := h
      cases h
    | ok a =>
      rw [hp] at h
      have h' : ps.foldlM parsePart a = .ok s := h
      obtain ⟨hmem, hnodup, haccept⟩ := ih a s h'
      obtain ⟨pmem, _, pnodup⟩ := parsePart_ok acc p a hp
      refine ⟨?_, ?_, ?_⟩
      · intro x
        rw [hmem x, pmem x, List.exists_mem_cons_iff]
        constructor
        · rintro (hex | hb | hc)
          · exact Or.inl (Or.inr hex)
          · exact Or.inl (Or.inl hb)
          · exact Or.inr hc
        · rintro ((hb | hex) | hc)
          · exact Or.inr (Or.inl hb)
          · exact Or.inl hex
          · exact Or.inr (Or.inr hc)
      · intro hacc
        exact hnodup (pnodup hacc)
      · intro q hq
        rcases List.mem_cons.mp hq with rfl | hq'
        · exact ⟨acc, a, hp⟩
        · exact haccept q hq'

/-- When a part has the syntactic shape `a-b` and the loop body accepted
it, the bounds are valid (`1 ≤ a ≤ b`) and the part denotes exactly the
range from `a` to `b`. -/
theorem parsePart_range_ok (acc s : List Nat) (p : List Char) (a b : Nat)
    (hr : partIsRange p a b) (h : parsePart acc p = .ok s) :
    1 ≤ a ∧ a ≤ b ∧ partContrib p = natRangeIcc a b := by
  obtain ⟨s1, s2, heq, h1, h2, hd1, hd2, hdash, hne, hva, hvb⟩ := hr
  simp only [parsePart] at h
  rw [if_neg hne, if_pos hdash, heq] at h
  dsimp only at h
  have hconds : s1 ≠ [] ∧ s2 ≠ [] ∧ s1.all Char.isDigit ∧ s2.all Char.isDigit :=
    ⟨h1, h2, hd1, hd2⟩
  rw [if_pos hconds] at h
  split at h
  · exact absurd h (by simp)
  · rename_i hlt
    split at h
    · exact absurd h (by simp)
    · rename_i hgt
      have hcontrib : partContrib p = natRangeIcc (strToNat s1) (strToNat s2) := by
        simp [partContrib, hne, hdash, heq, hconds]
      rw [hva, hvb] at hcontrib
      rw [hva] at hlt
      rw [hva, hvb] at hgt
      exact ⟨by omega, by omega, hcontrib⟩

/-- Claim C9: whenever `parse_image_selection` returns without raising,
the returned list is strictly increasing (hence duplicate-free), every
element is at least 1, its members are exactly the union of what the
comma-separated parts denote, and each range part `a-b` denotes exactly
the integers from `a` through `b` inclusive (with `1 ≤ a ≤ b`), all of
which are in the result. -/
theorem parse_image_selection_sound (spec : String) (l : List Nat)
    (h : parse_image_selection spec = .ok l) :
    List.Sorted (· < ·) l ∧ l.Nodup ∧ (∀ x ∈ l, 1 ≤ x) ∧
    (∀ x, x ∈ l ↔ ∃ p ∈ splitOnChar ',' (pyStrip spec.toList), x ∈ partContrib p) ∧
    (∀ p ∈ splitOnChar ',' (pyStrip spec.toList), ∀ a b, partIsRange p a b →
      1 ≤ a ∧ a ≤ b ∧ (∀ k, k ∈ partContrib p ↔ a ≤ k ∧ k ≤ b) ∧
      (∀ k, a ≤ k → k ≤ b → k ∈ l)) := by
  simp only [parse_image_selection] at h
  split at h
  · rename_i hempty
    replace h : (Except.ok [] : Except String (List Nat)) = Except.ok l := h
    injection h with h
    subst h
    refine ⟨by simp, by simp, by simp, ?_, ?_⟩
    · intro x
      rw [hempty]
      constructor
      · intro hx
        exact absurd hx (by simp)
      · rintro ⟨p, hp, hx⟩
        have hsp : splitOnChar ',' ([] : List Char) = [[]] := rfl
        rw [hsp] at hp
        simp at hp
        subst hp
        have hpc : partContrib ([] : List Char) = [] := rfl
        rw [hpc] at hx
        exact absurd hx (by simp)
    · intro p hp a b hr
      rw [hempty] at hp
      have hsp : splitOnChar ',' ([] : List Char) = [[]] := rfl
      rw [hsp] at hp
      simp at hp
      subst hp
      obtain ⟨s1, s2, heq, h1, h2, hd1, hd2, hdash, hne, hva, hvb⟩ := hr
      exact absurd rfl hne
  · rename_i hnemp
    split at h
    · rename_i e heq2
      replace h : (Except.error e : Except String (List Nat)) = Except.ok l := h
      cases h
    · rename_i indices heq2
      replace h : (Except.ok (List.insertionSort (· ≤ ·) indices) :
          Except String (List Nat)) = Except.ok l := h
      injection h with h
      subst h
      obtain ⟨hmem, hnodup, haccept⟩ := foldlM_parsePart_ok _ [] indices heq2
      have hnd : (List.insertionSort (· ≤ ·) indices).Nodup :=
        ((List.perm_insertionSort (· ≤ ·) indices).nodup_iff).mpr (hnodup List.nodup_nil)
      have hmem' : ∀ x, x ∈ List.insertionSort (· ≤ ·) indices ↔
          ∃ p ∈ splitOnChar ',' (pyStrip spec.toList), x ∈ partContrib p := by
        intro x
        rw [(List.perm_insertionSort (· ≤ ·) indices).mem_iff, hmem x]
        simp
      refine ⟨?_, hnd, ?_, hmem', ?_⟩
      · exact (List.sorted_insertionSort (· ≤ ·) indices).lt_of_le hnd
      · intro x hx
        obtain ⟨p, hp, hxp⟩ := (hmem' x).mp hx
        obtain ⟨acc', s', hps⟩ := haccept p hp
        exact (parsePart_ok acc' p s' hps).2.1 x hxp
      · intro p hp a b hr
        obtain ⟨acc', s', hps⟩ := haccept p hp
        obtain ⟨ha1, hab, hcon⟩ := parsePart_range_ok acc' s' p a b hr hps
        refine ⟨ha1, hab, ?_, ?_⟩
        · intro k
          rw [hcon]
          exact natRangeIcc_mem a b k hab
        · intro k hk1 hk2
          refine (hmem' k).mpr ⟨p, hp, ?_⟩
          rw [hcon]
          exact (natRangeIcc_mem a b k hab).mpr ⟨hk1, hk2⟩

/-- Witness for C9 at the concrete specification `"1,3-5,8"`. -/
theorem parse_image_selection_sound_witness :
    parse_image_selection "1,3-5,8" = .ok [1, 3, 4, 5, 8] ∧
    List.Sorted (· < ·) [1, 3, 4, 5, 8] ∧
    (∀ x ∈ [1, 3, 4, 5, 8], 1 ≤ x) :=
  ⟨rfl, (parse_image_selection_sound "1,3-5,8" [1, 3, 4, 5, 8] rfl).1,
    (parse_image_selection_sound "1,3-5,8" [1, 3, 4, 5, 8] rfl).2.2.1⟩
